import Mathlib

/-!
Verification of the Telemetry Ingestion & Recording Engine
(src/static/js/main.js) against its design specification.

The JavaScript source is embedded shallowly: the mutable globals
(historyData, isRecording, recordingData, recordingStartTime, the armed
deadline timeouts, the downloadPdfBtn disabled flag) become fields of an
explicit state record, every handler becomes a pure state-transition
function, and JavaScript numbers are modelled as rationals, with a small
sentinel type for the NaN and Infinity values that Math.min, Math.max and
division can produce on empty arrays.
-/

set_option autoImplicit false

namespace Monitor

universe u v

/-- Capacity of every rolling history list (MAX_HISTORY = 60 in main.js). -/
def MAX_HISTORY : ℕ := 60

/-- Recording deadline in milliseconds (RECORDING_DURATION = 5 * 60 * 1000). -/
def RECORDING_DURATION : ℕ := 300000

/-- Fixed reconnect delay in milliseconds (setTimeout(connectWebSocket, 3000)). -/
def RECONNECT_DELAY : ℕ := 3000

/-- One parsed telemetry snapshot, restricted to the fields the engine reads.
Each field stores the result of the optional chain the code evaluates:
cpuPercent is data.cpu?.percent, memVirtualPercent is
data.memory?.virtual?.percent, upBytesPerSec and downBytesPerSec are
data.network?.speed?.upload_bytes_per_sec and
data.network?.speed?.download_bytes_per_sec. A value of none models the
chain evaluating to undefined because the optional subsection is absent. -/
structure Snapshot where
  cpuPercent : Option ℚ
  memVirtualPercent : Option ℚ
  upBytesPerSec : Option ℚ
  downBytesPerSec : Option ℚ
deriving DecidableEq

/-- Projection used in updateCharts and calculateStats:
data.cpu?.percent || 0. The JavaScript || 0 maps undefined (and 0) to 0,
which getD 0 reproduces for the values in range. -/
def projCpu (d : Snapshot) : ℚ := d.cpuPercent.getD 0

/-- Projection data.memory?.virtual?.percent || 0. -/
def projMem (d : Snapshot) : ℚ := d.memVirtualPercent.getD 0

/-- Projection (data.network?.speed?.upload_bytes_per_sec || 0) / 1024,
the upload speed in KB/s. -/
def projUp (d : Snapshot) : ℚ := d.upBytesPerSec.getD 0 / 1024

/-- Projection (data.network?.speed?.download_bytes_per_sec || 0) / 1024,
the download speed in KB/s. -/
def projDown (d : Snapshot) : ℚ := d.downBytesPerSec.getD 0 / 1024

/-- One push into a rolling history list, as in updateCharts:
history.push(v); if (history.length > MAX_HISTORY) history.shift().
Array.shift removes the first (oldest) element, i.e. takes the tail. -/
def pushEvict (h : List ℚ) (v : ℚ) : List ℚ :=
  let h2 := h ++ [v]
  if MAX_HISTORY < h2.length then h2.tail else h2

/-- The coupled upload and download history lists
(historyData.network.upload and historyData.network.download). -/
structure NetHist where
  upload : List ℚ
  download : List ℚ
deriving DecidableEq

/-- The coupled network history update in updateCharts: both values are
pushed, and both lists are shifted when the UPLOAD list exceeds capacity
(the code guards only on historyData.network.upload.length). -/
def pushNet (h : NetHist) (u d : ℚ) : NetHist :=
  let up2 := h.upload ++ [u]
  let down2 := h.download ++ [d]
  if MAX_HISTORY < up2.length then ⟨up2.tail, down2.tail⟩ else ⟨up2, down2⟩

/-- The historyData global: cpu, memory and network rolling histories. -/
structure HistoryData where
  cpu : List ℚ
  memory : List ℚ
  network : NetHist
deriving DecidableEq

/-- updateCharts(data): pushes the four scalar projections into their
histories, evicting the oldest entry beyond MAX_HISTORY. -/
def updateCharts (h : HistoryData) (d : Snapshot) : HistoryData :=
  { cpu := pushEvict h.cpu (projCpu d)
    memory := pushEvict h.memory (projMem d)
    network := pushNet h.network (projUp d) (projDown d) }

/-- The last n elements of a list, in order (the suffix kept by the
rolling histories). -/
def lastN {α : Type u} (n : ℕ) (l : List α) : List α := l.drop (l.length - n)

lemma length_lastN {α : Type u} (n : ℕ) (l : List α) :
    (lastN n l).length = min l.length n := by
  simp only [lastN, List.length_drop]
  omega

lemma lastN_map {α : Type u} {β : Type v} (f : α → β) (n : ℕ) (l : List α) :
    lastN n (l.map f) = (lastN n l).map f := by
  simp [lastN, List.map_drop]

lemma tail_append_ne_nil {α : Type u} (l m : List α) (h : l ≠ []) :
    (l ++ m).tail = l.tail ++ m := by
  cases l with
  | nil => exact absurd rfl h
  | cons a t => simp

lemma drop_append_le {α : Type u} (l m : List α) (n : ℕ) (h : n ≤ l.length) :
    (l ++ m).drop n = l.drop n ++ m := by
  induction l generalizing n with
  | nil =>
      simp only [List.length_nil, Nat.le_zero] at h
      simp [h]
  | cons a t ih =>
      cases n with
      | zero => simp
      | succ k =>
          simp only [List.cons_append, List.drop_succ_cons]
          exact ih k (by simpa using h)

/-- One pushEvict step preserves the last-60-suffix characterisation. -/
lemma pushEvict_lastN (l : List ℚ) (x : ℚ) :
    pushEvict (lastN MAX_HISTORY l) x = lastN MAX_HISTORY (l ++ [x]) := by
  by_cases hl : l.length < MAX_HISTORY
  · have e1 : l.length - MAX_HISTORY = 0 := by omega
    have e2 : l.length + 1 - MAX_HISTORY = 0 := by omega
    have e5 : ¬ MAX_HISTORY < l.length + 1 := by omega
    simp [pushEvict, lastN, e1, e2, e5]
  · push_neg at hl
    have hM : MAX_HISTORY = 60 := rfl
    have hlen : (lastN MAX_HISTORY l).length = MAX_HISTORY := by
      rw [length_lastN]; omega
    have hcond : MAX_HISTORY < (lastN MAX_HISTORY l ++ [x]).length := by
      rw [List.length_append, hlen]
      simp
    have hne : lastN MAX_HISTORY l ≠ [] := by
      intro hnil
      rw [hnil] at hlen
      simp [MAX_HISTORY] at hlen
    simp only [pushEvict, if_pos hcond]
    rw [tail_append_ne_nil _ _ hne]
    have htail : (lastN MAX_HISTORY l).tail = l.drop (l.length - MAX_HISTORY + 1) := by
      rw [lastN, List.tail_drop]
    rw [htail, lastN]
    have e4 : (l ++ [x]).length - MAX_HISTORY = l.length - MAX_HISTORY + 1 := by
      simp only [List.length_append, List.length_singleton]
      omega
    rw [e4, drop_append_le l [x] (l.length - MAX_HISTORY + 1) (by omega)]

/-- Folding pushEvict from the empty history yields the last 60 values. -/
lemma foldl_pushEvict_eq_lastN (l : List ℚ) :
    l.foldl pushEvict [] = lastN MAX_HISTORY l := by
  induction l using List.reverseRecOn with
  | nil => simp [lastN]
  | append_singleton l x ih =>
      rw [List.foldl_append, List.foldl_cons, List.foldl_nil, ih, pushEvict_lastN]

/-- When the two network lists have equal length, the coupled update acts
componentwise as pushEvict on each. -/
lemma pushNet_eq (a b : List ℚ) (hab : a.length = b.length) (u d : ℚ) :
    pushNet ⟨a, b⟩ u d = ⟨pushEvict a u, pushEvict b d⟩ := by
  simp only [pushNet, pushEvict, List.length_append, List.length_singleton, hab]
  by_cases hc : MAX_HISTORY < b.length + 1
  · simp [hc]
  · simp [hc]

/-- A raw WebSocket message payload as seen by ws.onmessage. The
constructor bad models a payload on which JSON.parse throws (unparseable
text): the exception aborts the handler before updateDashboard or the
recording push runs, so no engine state is touched, and the browser event
loop still delivers later message events to the same handler. The
constructor good carries the parsed snapshot. -/
inductive RawMsg where
  | bad : RawMsg
  | good : Snapshot → RawMsg
deriving DecidableEq

/-- The mutable globals of main.js gathered into one state record:
historyData, isRecording, recordingData, recordingStartTime, the set of
armed five-minute deadline timeouts (represented by their absolute fire
times; the code never stores the setTimeout handle, so no code path can
clear one), and the disabled flag of the PDF download button. -/
structure EngineState where
  history : HistoryData
  isRecording : Bool
  recordingData : List Snapshot
  recordingStartTime : Option ℕ
  deadlineTimers : List ℕ
  pdfBtnDisabled : Bool
deriving DecidableEq

/-- The initial values of the globals at script load. -/
def initState : EngineState :=
  { history := ⟨[], [], ⟨[], []⟩⟩
    isRecording := false
    recordingData := []
    recordingStartTime := none
    deadlineTimers := []
    pdfBtnDisabled := false }

/-- ws.onmessage: parse the payload, update the dashboard (which updates
the four histories via updateCharts), and append the snapshot to
recordingData when isRecording. On a parse failure the handler aborts at
JSON.parse, before any mutation. -/
def onmessage (st : EngineState) (m : RawMsg) : EngineState :=
  match m with
  | .bad => st
  | .good d =>
      { st with
        history := updateCharts st.history d
        recordingData :=
          if st.isRecording then st.recordingData ++ [d] else st.recordingData }

/-- Deliver a sequence of raw messages, in order, to ws.onmessage. -/
def processAll (st : EngineState) (ms : List RawMsg) : EngineState :=
  ms.foldl onmessage st

/-- Deliver a sequence of well-formed snapshots to ws.onmessage. -/
def ingestSnaps (st : EngineState) (ds : List Snapshot) : EngineState :=
  processAll st (ds.map RawMsg.good)

/-- startRecording at absolute time now (milliseconds): sets isRecording,
clears recordingData, records the start time, disables the PDF button and
arms a new five-minute deadline timeout. The timeout handle is discarded
by the code, so the armed timer joins any timers still pending from
earlier sessions. The 1 Hz display interval is not modelled: its callback
only writes elapsed-time text. -/
def startRecording (now : ℕ) (st : EngineState) : EngineState :=
  { st with
    isRecording := true
    recordingData := []
    recordingStartTime := some now
    deadlineTimers := st.deadlineTimers ++ [now + RECORDING_DURATION]
    pdfBtnDisabled := true }

/-- stopRecording: clears isRecording, re-enables the PDF button, and
clears the 1 Hz display interval (clearInterval(recordingTimer)). It does
NOT clear any armed deadline timeout: the setTimeout handle from
startRecording was never stored, so deadlineTimers is untouched. -/
def stopRecording (st : EngineState) : EngineState :=
  { st with isRecording := false, pdfBtnDisabled := false }

/-- The body of the five-minute setTimeout armed by startRecording:
if (isRecording) stopRecording(). The guard makes a firing after a stop a
no-op, but the firing of a stale timer while a LATER session is active
still stops that session. -/
def deadlineFire (st : EngineState) : EngineState :=
  if st.isRecording then stopRecording st else st

/-- A JavaScript number as produced by the statistics reduction: a finite
rational, positive or negative Infinity (Math.min and Math.max of an
empty argument list), or NaN (0 / 0 on an empty average). -/
inductive JsNum where
  | fin : ℚ → JsNum
  | posInf : JsNum
  | negInf : JsNum
  | nan : JsNum
deriving DecidableEq

/-- arr.reduce((a, b) => a + b, 0): left fold of addition starting at 0. -/
def sumList (l : List ℚ) : ℚ := l.foldl (· + ·) 0

/-- The avg helper of calculateStats: sum / arr.length, where an empty
array yields 0 / 0 = NaN in JavaScript. -/
def jsAvg (l : List ℚ) : JsNum :=
  if l.length = 0 then .nan else .fin (sumList l / l.length)

/-- Math.min(...arr): positive Infinity on an empty array, otherwise the
least element. -/
def jsMin : List ℚ → JsNum
  | [] => .posInf
  | x :: xs => .fin (xs.foldl min x)

/-- Math.max(...arr): negative Infinity on an empty array, otherwise the
greatest element. -/
def jsMax : List ℚ → JsNum
  | [] => .negInf
  | x :: xs => .fin (xs.foldl max x)

/-- avg, min, max of one metric series, as in the cpu and memory entries
of the record returned by calculateStats. -/
structure MetricStats where
  avg : JsNum
  min : JsNum
  max : JsNum
deriving DecidableEq

/-- The network entry of the record returned by calculateStats: the code
computes only the two averages, no minimum or maximum. -/
structure NetworkStats where
  uploadAvg : JsNum
  downloadAvg : JsNum
deriving DecidableEq

/-- The record returned by calculateStats. -/
structure Stats where
  cpu : MetricStats
  memory : MetricStats
  network : NetworkStats
deriving DecidableEq

/-- calculateStats(): projects recordingData to the four value series
(with the same || 0 defaults as ingestion) and reduces them. cpu and
memory get avg, min and max; network gets only uploadAvg and downloadAvg. -/
def calculateStats (recordingData : List Snapshot) : Stats :=
  let cpuValues := recordingData.map projCpu
  let memValues := recordingData.map projMem
  let upValues := recordingData.map projUp
  let downValues := recordingData.map projDown
  { cpu := ⟨jsAvg cpuValues, jsMin cpuValues, jsMax cpuValues⟩
    memory := ⟨jsAvg memValues, jsMin memValues, jsMax memValues⟩
    network := ⟨jsAvg upValues, jsAvg downValues⟩ }

/-- Observable outcome of invoking downloadPDF: either the early return
with the alert that no recorded data exists, or a generated report built
from the statistics and the recorded snapshots. -/
inductive ExportResult where
  | noData : ExportResult
  | report : Stats → List Snapshot → ExportResult
deriving DecidableEq

/-- downloadPDF(): if recordingData.length === 0, alert and return
(noData); otherwise build the PDF from calculateStats() and
recordingData. The only guard is buffer emptiness. -/
def downloadPDF (recordingData : List Snapshot) : ExportResult :=
  if recordingData.length = 0 then .noData
  else .report (calculateStats recordingData) recordingData

/-- The export command applied to the engine state: downloadPDF reads the
recordingData global and nothing else of the engine state. -/
def exportCmd (st : EngineState) : ExportResult := downloadPDF st.recordingData

/-- The two values ever passed to updateConnectionStatus. The code has no
third value: no handler ever displays a connecting state. -/
inductive ConnStatus where
  | connected : ConnStatus
  | disconnected : ConnStatus
deriving DecidableEq

/-- Connection-side state: the displayed status and the pending
reconnect timeouts (delays in milliseconds) armed by ws.onclose. -/
structure ConnState where
  status : ConnStatus
  reconnectTimers : List ℕ
deriving DecidableEq

/-- ws.onopen: updateConnectionStatus(connected). -/
def onopen (s : ConnState) : ConnState := { s with status := .connected }

/-- ws.onclose: updateConnectionStatus(disconnected) and
setTimeout(connectWebSocket, 3000) — always, with the same fixed delay,
whatever the current state or the number of earlier attempts. -/
def onclose (s : ConnState) : ConnState :=
  { status := .disconnected
    reconnectTimers := s.reconnectTimers ++ [RECONNECT_DELAY] }

/-- ws.onerror: updateConnectionStatus(disconnected) only. The error
handler schedules nothing; the reconnect comes solely from the close
event that the browser delivers after a socket error. -/
def onerror (s : ConnState) : ConnState := { s with status := .disconnected }

/-- A parseable snapshot none of whose optional subsections is present. -/
def emptySnap : Snapshot := ⟨none, none, none, none⟩

/-- The initial (empty) value of the historyData global. -/
def emptyHistory : HistoryData := ⟨[], [], ⟨[], []⟩⟩

/-- Concrete snapshot: cpu 50 percent, memory 40 percent, upload 1024
bytes per second (1 KB/s), download 5120 bytes per second (5 KB/s). -/
def snapA : Snapshot := ⟨some 50, some 40, some 1024, some 5120⟩

/-- Concrete snapshot: cpu 50 percent, memory 40 percent, upload 3072
bytes per second (3 KB/s), download 5120 bytes per second (5 KB/s). -/
def snapB : Snapshot := ⟨some 50, some 40, some 3072, some 5120⟩

/-- A reachable engine state in the middle of an Active recording with
one buffered snapshot: recording started at time 0 and one snapshot
arrived. -/
def activeState : EngineState :=
  processAll (startRecording 0 initState) [RawMsg.good snapA]

lemma processAll_cons (st : EngineState) (m : RawMsg) (ms : List RawMsg) :
    processAll st (m :: ms) = processAll (onmessage st m) ms := rfl

lemma ingestSnaps_append (st : EngineState) (ds : List Snapshot) (d : Snapshot) :
    ingestSnaps st (ds ++ [d]) = onmessage (ingestSnaps st ds) (.good d) := by
  simp [ingestSnaps, processAll]

lemma onmessage_isRecording (st : EngineState) (m : RawMsg) :
    (onmessage st m).isRecording = st.isRecording := by
  cases m <;> rfl

/-- The four histories after ingesting a snapshot sequence from the
initial state are exactly the last-60 suffixes of the projected series. -/
lemma ingest_history_lastN (ds : List Snapshot) :
    (ingestSnaps initState ds).history =
      ⟨lastN MAX_HISTORY (ds.map projCpu),
       lastN MAX_HISTORY (ds.map projMem),
       ⟨lastN MAX_HISTORY (ds.map projUp),
        lastN MAX_HISTORY (ds.map projDown)⟩⟩ := by
  induction ds using List.reverseRecOn with
  | nil => simp [ingestSnaps, processAll, initState, lastN]
  | append_singleton ds d ih =>
      rw [ingestSnaps_append]
      have hlen : (lastN MAX_HISTORY (ds.map projUp)).length
          = (lastN MAX_HISTORY (ds.map projDown)).length := by
        rw [length_lastN, length_lastN, List.length_map, List.length_map]
      simp only [onmessage, updateCharts, ih]
      rw [pushNet_eq _ _ hlen]
      simp only [List.map_append, List.map_cons, List.map_nil]
      rw [pushEvict_lastN, pushEvict_lastN, pushEvict_lastN, pushEvict_lastN]

/-- While isRecording is false, message delivery leaves recordingData
unchanged and isRecording stays false. -/
lemma processAll_not_recording (st : EngineState) (ms : List RawMsg)
    (h : st.isRecording = false) :
    (processAll st ms).recordingData = st.recordingData ∧
    (processAll st ms).isRecording = false := by
  induction ms generalizing st with
  | nil => exact ⟨rfl, h⟩
  | cons m ms ih =>
      have h1 : (onmessage st m).isRecording = false := by
        rw [onmessage_isRecording]; exact h
      have h2 : (onmessage st m).recordingData = st.recordingData := by
        cases m with
        | bad => rfl
        | good d => simp [onmessage, h]
      have h3 := ih (onmessage st m) h1
      rw [processAll_cons]
      exact ⟨h3.1.trans h2, h3.2⟩

lemma foldl_min_mem (l : List ℚ) (a : ℚ) : l.foldl min a ∈ a :: l := by
  induction l generalizing a with
  | nil => simp
  | cons x xs ih =>
      rw [List.foldl_cons]
      rcases List.mem_cons.mp (ih (min a x)) with h1 | h1
      · rcases min_choice a x with hc | hc
        · rw [h1, hc]; exact List.mem_cons_self _ _
        · rw [h1, hc]; exact List.mem_cons_of_mem _ (List.mem_cons_self _ _)
      · exact List.mem_cons_of_mem _ (List.mem_cons_of_mem _ h1)

lemma foldl_min_le (l : List ℚ) (a : ℚ) : ∀ v ∈ a :: l, l.foldl min a ≤ v := by
  induction l generalizing a with
  | nil =>
      intro v hv
      rw [List.mem_singleton] at hv
      simp [hv]
  | cons x xs ih =>
      intro v hv
      rw [List.foldl_cons]
      rcases List.mem_cons.mp hv with hva | hv2
      · rw [hva]
        exact le_trans (ih (min a x) _ (List.mem_cons_self _ _)) (min_le_left a x)
      · rcases List.mem_cons.mp hv2 with hvx | hv3
        · rw [hvx]
          exact le_trans (ih (min a x) _ (List.mem_cons_self _ _)) (min_le_right a x)
        · exact ih (min a x) v (List.mem_cons_of_mem _ hv3)

lemma foldl_max_mem (l : List ℚ) (a : ℚ) : l.foldl max a ∈ a :: l := by
  induction l generalizing a with
  | nil => simp
  | cons x xs ih =>
      rw [List.foldl_cons]
      rcases List.mem_cons.mp (ih (max a x)) with h1 | h1
      · rcases max_choice a x with hc | hc
        · rw [h1, hc]; exact List.mem_cons_self _ _
        · rw [h1, hc]; exact List.mem_cons_of_mem _ (List.mem_cons_self _ _)
      · exact List.mem_cons_of_mem _ (List.mem_cons_of_mem _ h1)

lemma foldl_max_ge (l : List ℚ) (a : ℚ) : ∀ v ∈ a :: l, v ≤ l.foldl max a := by
  induction l generalizing a with
  | nil =>
      intro v hv
      rw [List.mem_singleton] at hv
      simp [hv]
  | cons x xs ih =>
      intro v hv
      rw [List.foldl_cons]
      rcases List.mem_cons.mp hv with hva | hv2
      · rw [hva]
        exact le_trans (le_max_left a x) (ih (max a x) _ (List.mem_cons_self _ _))
      · rcases List.mem_cons.mp hv2 with hvx | hv3
        · rw [hvx]
          exact le_trans (le_max_right a x) (ih (max a x) _ (List.mem_cons_self _ _))
        · exact ih (max a x) v (List.mem_cons_of_mem _ hv3)

/-- jsMin of a nonempty list is a least element of the list. -/
lemma jsMin_spec (x : ℚ) (xs : List ℚ) :
    ∃ m, jsMin (x :: xs) = .fin m ∧ m ∈ x :: xs ∧ ∀ v ∈ x :: xs, m ≤ v :=
  ⟨xs.foldl min x, rfl, foldl_min_mem xs x, foldl_min_le xs x⟩

/-- jsMax of a nonempty list is a greatest element of the list. -/
lemma jsMax_spec (x : ℚ) (xs : List ℚ) :
    ∃ m, jsMax (x :: xs) = .fin m ∧ m ∈ x :: xs ∧ ∀ v ∈ x :: xs, v ≤ m :=
  ⟨xs.foldl max x, rfl, foldl_max_mem xs x, foldl_max_ge xs x⟩

/-- C1: the code contradicts the claim that a manual stop cancels the
five-minute deadline timer and that a late deadline signal cannot affect
a later session. Scenario: session one starts at t = 0 (arming a timeout
that fires at t = 300000), the user stops it manually at t = 60000
(stopRecording clears only the display interval, so the timeout stays
armed), session two starts at t = 120000 (its own deadline would be
t = 420000). When the stale timeout fires at t = 300000 its isRecording
guard sees the ACTIVE second session and stops it — 180 seconds into its
five-minute window. -/
theorem c1_stale_deadline_stops_later_session :
    (stopRecording (startRecording 0 initState)).deadlineTimers
        = [RECORDING_DURATION] ∧
    (startRecording 120000 (stopRecording (startRecording 0 initState))).isRecording
        = true ∧
    (startRecording 120000 (stopRecording (startRecording 0 initState))).deadlineTimers
        = [300000, 420000] ∧
    (deadlineFire (startRecording 120000 (stopRecording
        (startRecording 0 initState)))).isRecording = false := by
  refine ⟨rfl, rfl, rfl, rfl⟩

/-- C2: ingesting any sequence of snapshots from the initial state leaves
each of the four rolling histories equal to the projections of the last
60 snapshots in arrival order (oldest first), with length
min N 60 — that is, exactly 60 once N exceeds 60 and exactly N before. -/
theorem c2_ring_history_fifo (ds : List Snapshot) :
    (ingestSnaps initState ds).history.cpu = (lastN MAX_HISTORY ds).map projCpu ∧
    (ingestSnaps initState ds).history.memory = (lastN MAX_HISTORY ds).map projMem ∧
    (ingestSnaps initState ds).history.network.upload
        = (lastN MAX_HISTORY ds).map projUp ∧
    (ingestSnaps initState ds).history.network.download
        = (lastN MAX_HISTORY ds).map projDown ∧
    (ingestSnaps initState ds).history.cpu.length = min ds.length MAX_HISTORY ∧
    (ingestSnaps initState ds).history.memory.length = min ds.length MAX_HISTORY ∧
    (ingestSnaps initState ds).history.network.upload.length
        = min ds.length MAX_HISTORY ∧
    (ingestSnaps initState ds).history.network.download.length
        = min ds.length MAX_HISTORY := by
  have h := ingest_history_lastN ds
  have hcpu : (ingestSnaps initState ds).history.cpu
      = lastN MAX_HISTORY (ds.map projCpu) := by rw [h]
  have hmem : (ingestSnaps initState ds).history.memory
      = lastN MAX_HISTORY (ds.map projMem) := by rw [h]
  have hup : (ingestSnaps initState ds).history.network.upload
      = lastN MAX_HISTORY (ds.map projUp) := by rw [h]
  have hdn : (ingestSnaps initState ds).history.network.download
      = lastN MAX_HISTORY (ds.map projDown) := by rw [h]
  refine ⟨?_, ?_, ?_, ?_, ?_, ?_, ?_, ?_⟩
  · rw [hcpu, lastN_map]
  · rw [hmem, lastN_map]
  · rw [hup, lastN_map]
  · rw [hdn, lastN_map]
  · rw [hcpu, length_lastN, List.length_map]
  · rw [hmem, length_lastN, List.length_map]
  · rw [hup, length_lastN, List.length_map]
  · rw [hdn, length_lastN, List.length_map]

/-- C3 counterexample: a snapshot with every optional subsection missing
is NOT skipped — updateCharts appends the default 0 to all four
histories, so each history grows from length 0 to length 1 and the value
0 is appended in place of each missing metric, contrary to the claim. -/
theorem c3_counterexample_zero_appended :
    (updateCharts emptyHistory emptySnap).cpu = [0] ∧
    (updateCharts emptyHistory emptySnap).memory = [0] ∧
    (updateCharts emptyHistory emptySnap).network.upload = [0] ∧
    (updateCharts emptyHistory emptySnap).network.download = [0] ∧
    (updateCharts emptyHistory emptySnap).cpu.length ≠ emptyHistory.cpu.length := by
  refine ⟨?_, ?_, ?_, ?_, ?_⟩ <;>
    norm_num [updateCharts, pushEvict, pushNet, projCpu, projMem, projUp, projDown,
      emptyHistory, emptySnap, MAX_HISTORY]

/-- C3 amended: when an optional subsection is missing from an accepted
snapshot, the corresponding projection defaults to 0 and IS appended to
the history: below capacity the history for that metric becomes the old
history with 0 appended (its length grows by one). -/
theorem c3_amended_zero_appended (h : HistoryData) (d : Snapshot) :
    (d.cpuPercent = none → h.cpu.length < MAX_HISTORY →
        (updateCharts h d).cpu = h.cpu ++ [0]) ∧
    (d.memVirtualPercent = none → h.memory.length < MAX_HISTORY →
        (updateCharts h d).memory = h.memory ++ [0]) ∧
    (d.upBytesPerSec = none → h.network.upload.length < MAX_HISTORY →
        (updateCharts h d).network.upload = h.network.upload ++ [0]) ∧
    (d.downBytesPerSec = none → h.network.upload.length < MAX_HISTORY →
        (updateCharts h d).network.download = h.network.download ++ [0]) := by
  refine ⟨?_, ?_, ?_, ?_⟩
  · intro hnone hlen
    have hc : ¬ MAX_HISTORY < h.cpu.length + 1 := by omega
    simp [updateCharts, pushEvict, hc, projCpu, hnone]
  · intro hnone hlen
    have hc : ¬ MAX_HISTORY < h.memory.length + 1 := by omega
    simp [updateCharts, pushEvict, hc, projMem, hnone]
  · intro hnone hlen
    have hc : ¬ MAX_HISTORY < h.network.upload.length + 1 := by omega
    simp [updateCharts, pushNet, hc, projUp, hnone]
  · intro hnone hlen
    have hc : ¬ MAX_HISTORY < h.network.upload.length + 1 := by omega
    simp [updateCharts, pushNet, hc, projDown, hnone]

/-- Witness for the C3 amended theorem at a concrete input: the snapshot
with no cpu subsection appends 0 to the empty cpu history. -/
theorem c3_amended_zero_appended_witness :
    emptySnap.cpuPercent = none ∧
    (updateCharts emptyHistory emptySnap).cpu = emptyHistory.cpu ++ [0] :=
  ⟨rfl, (c3_amended_zero_appended emptyHistory emptySnap).1 rfl (by decide)⟩

/-- C4 counterexample: for the two-snapshot buffer with network upload
speeds 1 KB/s and 3 KB/s, calculateStats returns a record containing
averages, minima and maxima for cpu and memory but ONLY the two averages
for network: the upload minimum 1 and maximum 3 appear nowhere in the
result (its network entry is the single pair of averages 2 and 5), so the
claim that the minimum and maximum are returned for all four metrics
fails. -/
theorem c4_counterexample_no_network_min_max :
    calculateStats [snapA, snapB] =
      ⟨⟨.fin 50, .fin 50, .fin 50⟩, ⟨.fin 40, .fin 40, .fin 40⟩, ⟨.fin 2, .fin 5⟩⟩ ∧
    jsMin ([snapA, snapB].map projUp) = .fin 1 ∧
    jsMax ([snapA, snapB].map projUp) = .fin 3 := by
  refine ⟨?_, ?_, ?_⟩ <;>
    norm_num [calculateStats, jsAvg, jsMin, jsMax, sumList, min_def, max_def,
      projCpu, projMem, projUp, projDown, snapA, snapB]

/-- C4 amended: for every non-empty buffer, calculateStats returns the
arithmetic mean, minimum and maximum for cpu percent and memory percent,
and ONLY the arithmetic mean for network upload and download KB/s; a
snapshot missing a field contributes 0 and still counts in the
denominator of every mean (the series have the same length as the
buffer). -/
theorem c4_amended_stats (B : List Snapshot) (hB : B ≠ []) :
    (calculateStats B).cpu.avg = .fin (sumList (B.map projCpu) / B.length) ∧
    (∃ m, (calculateStats B).cpu.min = .fin m ∧ m ∈ B.map projCpu ∧
        ∀ v ∈ B.map projCpu, m ≤ v) ∧
    (∃ m, (calculateStats B).cpu.max = .fin m ∧ m ∈ B.map projCpu ∧
        ∀ v ∈ B.map projCpu, v ≤ m) ∧
    (calculateStats B).memory.avg = .fin (sumList (B.map projMem) / B.length) ∧
    (∃ m, (calculateStats B).memory.min = .fin m ∧ m ∈ B.map projMem ∧
        ∀ v ∈ B.map projMem, m ≤ v) ∧
    (∃ m, (calculateStats B).memory.max = .fin m ∧ m ∈ B.map projMem ∧
        ∀ v ∈ B.map projMem, v ≤ m) ∧
    (calculateStats B).network.uploadAvg
        = .fin (sumList (B.map projUp) / B.length) ∧
    (calculateStats B).network.downloadAvg
        = .fin (sumList (B.map projDown) / B.length) := by
  obtain ⟨b, bs, rfl⟩ := List.exists_cons_of_ne_nil hB
  have havg : ∀ f : Snapshot → ℚ,
      jsAvg ((b :: bs).map f)
        = .fin (sumList ((b :: bs).map f) / ((b :: bs).length : ℚ)) := by
    intro f
    rw [jsAvg, if_neg (by simp), List.length_map]
  have hmin : ∀ f : Snapshot → ℚ,
      ∃ m, jsMin ((b :: bs).map f) = .fin m ∧ m ∈ (b :: bs).map f ∧
        ∀ v ∈ (b :: bs).map f, m ≤ v := by
    intro f
    rw [List.map_cons]
    exact jsMin_spec (f b) (bs.map f)
  have hmax : ∀ f : Snapshot → ℚ,
      ∃ m, jsMax ((b :: bs).map f) = .fin m ∧ m ∈ (b :: bs).map f ∧
        ∀ v ∈ (b :: bs).map f, v ≤ m := by
    intro f
    rw [List.map_cons]
    exact jsMax_spec (f b) (bs.map f)
  exact ⟨havg projCpu, hmin projCpu, hmax projCpu, havg projMem, hmin projMem,
    hmax projMem, havg projUp, havg projDown⟩

/-- Witness for the C4 amended theorem at the one-snapshot buffer. -/
theorem c4_amended_stats_witness :
    (calculateStats [snapA]).cpu.avg
        = .fin (sumList ([snapA].map projCpu) / ([snapA] : List Snapshot).length) ∧
    (∃ m, (calculateStats [snapA]).cpu.min = .fin m ∧ m ∈ [snapA].map projCpu ∧
        ∀ v ∈ [snapA].map projCpu, m ≤ v) :=
  ⟨(c4_amended_stats [snapA] (by simp)).1, (c4_amended_stats [snapA] (by simp)).2.1⟩

/-- C5: a malformed (unparseable) payload leaves the histories and the
recording buffer untouched — the handler aborts at JSON.parse before any
mutation — and the remaining messages of the stream are then processed
exactly as if the bad message had never arrived. -/
theorem c5_malformed_payload_dropped (st : EngineState) (ms : List RawMsg) :
    (onmessage st RawMsg.bad).history = st.history ∧
    (onmessage st RawMsg.bad).recordingData = st.recordingData ∧
    onmessage st RawMsg.bad = st ∧
    processAll st (RawMsg.bad :: ms) = processAll st ms :=
  ⟨rfl, rfl, rfl, rfl⟩

/-- C6 counterexample: calculateStats applied to the empty buffer does
not fail with any error — the code has no error path — it returns a fully
populated record whose averages are NaN (0 / 0) and whose minima and
maxima are positive and negative Infinity (Math.min() and Math.max() of
no arguments), contrary to the claim that an EmptySessionError is
raised instead of producing a result. -/
theorem c6_counterexample_stats_on_empty_buffer :
    calculateStats [] =
      ⟨⟨.nan, .posInf, .negInf⟩, ⟨.nan, .posInf, .negInf⟩, ⟨.nan, .nan⟩⟩ := rfl

/-- C6 amended: the empty-buffer protection lives in downloadPDF, which
returns early with the user-visible no-data alert and computes no
statistics; calculateStats itself has no empty-buffer error path and
would yield NaN and Infinity sentinel values if invoked on an empty
buffer. -/
theorem c6_amended_empty_export_guard :
    downloadPDF [] = .noData ∧
    (calculateStats []).cpu.avg = .nan ∧
    (calculateStats []).cpu.min = .posInf ∧
    (calculateStats []).cpu.max = .negInf ∧
    (calculateStats []).network.uploadAvg = .nan ∧
    (calculateStats []).network.downloadAvg = .nan :=
  ⟨rfl, rfl, rfl, rfl, rfl, rfl⟩

/-- C7 counterexample: the error handler alone schedules NO reconnection
attempt — from a connected state with no pending timer, ws.onerror sets
the status to disconnected and leaves the pending-reconnect list empty,
contrary to the claim that close or error each schedule a 3-second
reconnect. -/
theorem c7_counterexample_error_no_reconnect :
    (onerror ⟨ConnStatus.connected, []⟩).status = ConnStatus.disconnected ∧
    (onerror ⟨ConnStatus.connected, []⟩).reconnectTimers = [] :=
  ⟨rfl, rfl⟩

/-- C7 amended: on close the state becomes Disconnected and a reconnect
is scheduled with the fixed 3-second delay, unconditionally (same
constant delay from every state, so no backoff growth and no attempt
cap); on error the state becomes Disconnected but nothing is scheduled
(the reconnect comes from the close event that follows a socket error);
on open the state becomes Connected. The displayed state never takes a
Connecting value — the code only ever displays connected or
disconnected. -/
theorem c7_amended_reconnect_on_close_only (s : ConnState) :
    (onclose s).status = .disconnected ∧
    (onclose s).reconnectTimers = s.reconnectTimers ++ [RECONNECT_DELAY] ∧
    (onerror s).status = .disconnected ∧
    (onerror s).reconnectTimers = s.reconnectTimers ∧
    (onopen s).status = .connected ∧
    (onopen s).reconnectTimers = s.reconnectTimers :=
  ⟨rfl, rfl, rfl, rfl, rfl, rfl⟩

/-- C8 counterexample: invoked during an Active recording with one
buffered snapshot, the export command is NOT a no-op: downloadPDF checks
only buffer emptiness, so it produces a report from the mid-session buffer,
contrary to the claim that any non-Completed state yields a no-op with a
no-data signal. -/
theorem c8_counterexample_export_during_active :
    activeState.isRecording = true ∧
    activeState.recordingData = [snapA] ∧
    exportCmd activeState = .report (calculateStats [snapA]) [snapA] ∧
    exportCmd activeState ≠ .noData := by
  refine ⟨rfl, rfl, rfl, ?_⟩
  intro heq
  rw [show exportCmd activeState
      = .report (calculateStats [snapA]) [snapA] from rfl] at heq
  exact ExportResult.noConfusion heq

/-- C8 amended: the export command guards only on buffer emptiness: with
an empty buffer it is a no-op with the user-visible no-data alert, and
with a non-empty buffer it produces a report regardless of the recording
status. Separately, the UI disables the export button while recording
(startRecording disables it, stopRecording re-enables it), which is what
prevents export during Active through the interface. -/
theorem c8_amended_export_guard (st : EngineState) (now : ℕ) :
    (st.recordingData = [] → exportCmd st = .noData) ∧
    (st.recordingData ≠ [] →
        exportCmd st = .report (calculateStats st.recordingData) st.recordingData) ∧
    (startRecording now st).pdfBtnDisabled = true ∧
    (stopRecording st).pdfBtnDisabled = false := by
  refine ⟨?_, ?_, rfl, rfl⟩
  · intro h
    simp [exportCmd, downloadPDF, h]
  · intro h
    have hlen : ¬ st.recordingData.length = 0 := by
      simpa [List.length_eq_zero] using h
    simp [exportCmd, downloadPDF, hlen]

/-- Witness for the C8 amended theorem: in the initial state the buffer
is empty and export is the no-data no-op; starting a recording disables
the export button. -/
theorem c8_amended_export_guard_witness :
    exportCmd initState = .noData ∧
    (startRecording 0 initState).pdfBtnDisabled = true :=
  ⟨(c8_amended_export_guard initState 0).1 rfl,
   (c8_amended_export_guard initState 0).2.2.1⟩

/-- C9: after ingesting any snapshot sequence, the upload and download
histories have exactly equal length, both at most 60, and each is the
projection of the same suffix of the input sequence — so index i of one
belongs to the same snapshot as index i of the other. -/
theorem c9_network_histories_aligned (ds : List Snapshot) :
    (ingestSnaps initState ds).history.network.upload.length
        = (ingestSnaps initState ds).history.network.download.length ∧
    (ingestSnaps initState ds).history.network.upload.length ≤ MAX_HISTORY ∧
    (ingestSnaps initState ds).history.network.upload
        = (lastN MAX_HISTORY ds).map projUp ∧
    (ingestSnaps initState ds).history.network.download
        = (lastN MAX_HISTORY ds).map projDown := by
  have h := ingest_history_lastN ds
  have hup : (ingestSnaps initState ds).history.network.upload
      = lastN MAX_HISTORY (ds.map projUp) := by rw [h]
  have hdn : (ingestSnaps initState ds).history.network.download
      = lastN MAX_HISTORY (ds.map projDown) := by rw [h]
  refine ⟨?_, ?_, ?_, ?_⟩
  · rw [hup, hdn, length_lastN, length_lastN, List.length_map, List.length_map]
  · rw [hup, length_lastN, List.length_map]
    omega
  · rw [hup, lastN_map]
  · rw [hdn, lastN_map]

/-- C10: stopping a recording (manually or through the deadline handler)
leaves the recorded buffer unchanged; any messages delivered after the
stop leave it unchanged as well, so a later export reads exactly the
buffer as it stood at the moment of stop, and computing the statistics
changes no state. -/
theorem c10_stop_preserves_buffer (st : EngineState) (ms : List RawMsg) :
    (stopRecording st).recordingData = st.recordingData ∧
    (deadlineFire st).recordingData = st.recordingData ∧
    (processAll (stopRecording st) ms).recordingData = st.recordingData ∧
    exportCmd (processAll (stopRecording st) ms) = downloadPDF st.recordingData := by
  have h1 : (stopRecording st).recordingData = st.recordingData := rfl
  have h2 : (deadlineFire st).recordingData = st.recordingData := by
    by_cases h : st.isRecording
    · simp [deadlineFire, h, stopRecording]
    · simp [deadlineFire, h]
  have h3 := processAll_not_recording (stopRecording st) ms rfl
  exact ⟨h1, h2, h3.1.trans h1, by rw [exportCmd, h3.1.trans h1]⟩

end Monitor
